import Mathlib

/-!
Shallow embedding of the decision-and-orchestration pipeline of
`src/translation.py` (the core of the Wajahat698/ff repository): language
classification, word-level dictionary substitution, and the sequencing of the
two-hop pivot translation, together with the resulting status taxonomy.

Strings are modelled as `List Char` (`Str`).  The external capabilities
(the `langdetect.detect` statistical detector and the four directional
MarianMT translators wrapped by `translate` at src/translation.py:38-41) are
modelled as oracle functions `Str → Except Str Str`; `Except.error msg`
models a raised Python exception whose `str(e)` is `msg`.  Python `dict`s are
modelled as insertion-ordered association lists.  The character classes of
Python (`str.split()` whitespace, the regex classes `\w` and `\s`,
`str.lower()`) are modelled over their ASCII range.
-/

/-- Strings, modelled as lists of characters. -/
abbrev Str := List Char

/-- Python whitespace (the characters recognised by `str.split()`, `str.strip()`
and the regex class `\s`), ASCII range: space, tab, newline, carriage return,
vertical tab, form feed. -/
def isPySpace (c : Char) : Bool :=
  decide (c.toNat = 32 ∨ c.toNat = 9 ∨ c.toNat = 10 ∨ c.toNat = 13 ∨
    c.toNat = 11 ∨ c.toNat = 12)

/-- Python word character (the regex class `\w`), ASCII range: letters, digits
and underscore. -/
def isPyWord (c : Char) : Bool :=
  decide ((65 ≤ c.toNat ∧ c.toNat ≤ 90) ∨ (97 ≤ c.toNat ∧ c.toNat ≤ 122) ∨
    (48 ≤ c.toNat ∧ c.toNat ≤ 57) ∨ c.toNat = 95)

/-- Python `str.lower()`, character by character (ASCII range, via
`Char.toLower`). -/
def pyLower (s : Str) : Str := s.map Char.toLower

/-- Python `str.strip()`: remove leading and trailing whitespace. -/
def pyStrip (s : Str) : Str :=
  ((s.dropWhile isPySpace).reverse.dropWhile isPySpace).reverse

/-- The whitespace-separated segments of a string, including the empty
segments produced by leading, trailing or repeated whitespace.  Helper for
`pySplit`; always returns a nonempty list. -/
def wsSegs : Str → List Str
  | [] => [[]]
  | c :: cs =>
    if isPySpace c then [] :: wsSegs cs
    else
      match wsSegs cs with
      | [] => [[c]]
      | t :: ts => (c :: t) :: ts

/-- Python `str.split()` with no argument: split on runs of whitespace,
dropping empty tokens. -/
def pySplit (s : Str) : List Str := (wsSegs s).filter (fun t => !t.isEmpty)

/-- Python `' '.join(words)` (src/translation.py:26,35). -/
def joinSpace : List Str → Str
  | [] => []
  | [t] => t
  | t :: ts => t ++ ' ' :: joinSpace ts

/-- A Python `dict` from strings to strings, modelled as an insertion-ordered
association list. -/
abbrev Dict := List (Str × Str)

/-- Python `d[k]` / `k in d`: the binding of `k` in the dict (at most one key
occurrence is ever present, so the first match is the binding). -/
def dictFind : Dict → Str → Option Str
  | [], _ => none
  | (k₀, v) :: d, k => if k₀ = k then some v else dictFind d k

/-- Python `d[k] = v`: overwrite the binding in place if the key is present,
otherwise append a new binding. -/
def pyDictInsert : Dict → Str → Str → Dict
  | [], k, v => [(k, v)]
  | (k₀, v₀) :: d, k, v =>
    if k₀ = k then (k, v) :: d else (k₀, v₀) :: pyDictInsert d k v

/-- `dict(zip(col_a.str.lower(), col_b.str.lower()))` over the dataset rows
(src/translation.py:15-16): both columns are lower-cased and the pairs are
inserted left to right, so a later row overwrites an earlier row with the
same lower-cased key.  `french_to_shimarore` is `buildLexicon rows` and
`shimarore_to_french` is `buildLexicon (rows.map Prod.swap)`. -/
def buildLexicon (rows : List (Str × Str)) : Dict :=
  rows.foldl (fun d r => pyDictInsert d (pyLower r.1) (pyLower r.2)) []

/-- The replacement for-loop of src/translation.py:21-25 (and its duplicate at
lines 30-34): walk the token list once, replace each token that is a dict key
by its value, and record in the flag whether any replacement happened.  The
Python loop mutates `words[i]` in place, but each index is read before it is
written and later iterations never re-read earlier indices, so the loop is a
pointwise map with an or-accumulated flag. -/
def replaceLoop (d : Dict) : List Str → List Str × Bool
  | [] => ([], false)
  | w :: ws =>
    let rest := replaceLoop d ws
    match dictFind d w with
    | some v => (v :: rest.1, true)
    | none => (w :: rest.1, rest.2)

/-- `replace_french_with_shimarore` (src/translation.py:19-26).  The source
closes over the global dict `french_to_shimarore`; here it is an explicit
argument. -/
def replace_french_with_shimarore (french_to_shimarore : Dict) (text : Str) :
    Str × Bool :=
  let r := replaceLoop french_to_shimarore (pySplit (pyLower text))
  (joinSpace r.1, r.2)

/-- `replace_shimarore_with_french` (src/translation.py:28-35).  The source
closes over the global dict `shimarore_to_french`; here it is an explicit
argument. -/
def replace_shimarore_with_french (shimarore_to_french : Dict) (text : Str) :
    Str × Bool :=
  let r := replaceLoop shimarore_to_french (pySplit (pyLower text))
  (joinSpace r.1, r.2)

/-- `clean_text` (src/translation.py:44-45):
`re.sub(r"[^\w\s]", "", text.lower())` — lower-case, then delete every
character that is neither a word character nor whitespace. -/
def clean_text (text : Str) : Str :=
  (pyLower text).filter (fun c => isPyWord c || isPySpace c)

/-- An external capability (the statistical detector, or one direction of the
pivot translator): total as a mathematical function, with `Except.error msg`
modelling a raised exception carrying message `msg`. -/
abbrev Cap := Str → Except Str Str

/-- The result dict built by `translate_input` (src/translation.py:59-64):
`input`, `detected_language`, `translation`, `status`. -/
structure Result where
  input : Str
  detected_language : Option Str
  translation : Option Str
  status : Str
deriving DecidableEq

/-- The status string `"success"`. -/
def strSuccess : Str := "success".data

/-- The status string `"word not found"`. -/
def strWordNotFound : Str := "word not found".data

/-- The status string `"unsupported language"`. -/
def strUnsupported : Str := "unsupported language".data

/-- The literal leading segment `"error: "` of every error status
(src/translation.py:118). -/
def strErr : Str := "error: ".data

/-- The source-language code `"fr"`. -/
def strFr : Str := "fr".data

/-- The vernacular language code `"sw"`. -/
def strSw : Str := "sw".data

/-- The forward pivot route (the block inlined at src/translation.py:88-91 and
again at 105-108): substitute forward-lexicon tokens into `original`, then
translate source→pivot (`fr_en`), then pivot→vernacular (`en_sw`).  On
success the translation is stored; if either hop raises, the status becomes
`"error: " + str(e)` and the rest of the result (in particular
`detected_language`, assigned before the hops) is kept. -/
def frenchPivot (fwd : Dict) (fr_en en_sw : Cap) (original : Str) (r : Result) :
    Result :=
  match fr_en ((replace_french_with_shimarore fwd original).1) with
  | .error e => { r with status := strErr ++ e }
  | .ok english =>
    match en_sw english with
    | .error e => { r with status := strErr ++ e }
    | .ok shim => { r with translation := some shim }

/-- The reverse pivot route (the block inlined at src/translation.py:95-98 and
again at 110-113): substitute reverse-lexicon tokens into `original`, then
translate vernacular→pivot (`sw_en`), then pivot→source (`en_fr`). -/
def shimaorePivot (rev : Dict) (sw_en en_fr : Cap) (original : Str) (r : Result) :
    Result :=
  match sw_en ((replace_shimarore_with_french rev original).1) with
  | .error e => { r with status := strErr ++ e }
  | .ok english =>
    match en_fr english with
    | .error e => { r with status := strErr ++ e }
    | .ok french => { r with translation := some french }

/-- The detector fallback (src/translation.py:100-115): called only when
neither lexicon matched any token.  The raw detector output is stored in
`detected_language` before any further call; a detector exception is caught
by the surrounding `try` with `detected_language` still unset. -/
def detectBranch (detect fr_en en_sw sw_en en_fr : Cap) (fwd rev : Dict)
    (original cleaned : Str) (r : Result) : Result :=
  match detect cleaned with
  | .error e => { r with status := strErr ++ e }
  | .ok detected =>
    if detected = strFr then
      frenchPivot fwd fr_en en_sw original
        { r with detected_language := some detected }
    else if detected = strSw then
      shimaorePivot rev sw_en en_fr original
        { r with detected_language := some detected }
    else
      { r with detected_language := some detected, status := strUnsupported }

/-- The multi-token part of `translate_input` (src/translation.py:81-118):
`is_french_like` is checked first (the fixed tie-break), then
`is_shimarore_like`, then the statistical detector. -/
def multiBranch (detect fr_en en_sw sw_en en_fr : Cap) (fwd rev : Dict)
    (original cleaned : Str) (words : List Str) (r : Result) : Result :=
  if words.any (fun w => (dictFind fwd w).isSome) then
    frenchPivot fwd fr_en en_sw original
      { r with detected_language := some strFr }
  else if words.any (fun w => (dictFind rev w).isSome) then
    shimaorePivot rev sw_en en_fr original
      { r with detected_language := some strSw }
  else
    detectBranch detect fr_en en_sw sw_en en_fr fwd rev original cleaned r

/-- `translate_input` (src/translation.py:54-120).  The source binds
`original = sentence.strip().lower()`, `cleaned = clean_text(original)`,
`words = cleaned.split()` and a result dict initialised to status
`"success"`; those bindings are inlined here.  The globals
(`french_to_shimarore`, `shimarore_to_french`, the four model pairs and the
imported `detect`) are explicit arguments. -/
def translate_input (detect fr_en en_sw sw_en en_fr : Cap) (fwd rev : Dict)
    (sentence : Str) : Result :=
  match pySplit (clean_text (pyLower (pyStrip sentence))) with
  | [word] =>
    match dictFind fwd word with
    | some v =>
      { input := pyLower (pyStrip sentence), detected_language := some strFr,
        translation := some v, status := strSuccess }
    | none =>
      match dictFind rev word with
      | some v =>
        { input := pyLower (pyStrip sentence), detected_language := some strSw,
          translation := some v, status := strSuccess }
      | none =>
        { input := pyLower (pyStrip sentence), detected_language := none,
          translation := none, status := strWordNotFound }
  | words =>
    multiBranch detect fr_en en_sw sw_en en_fr fwd rev
      (pyLower (pyStrip sentence)) (clean_text (pyLower (pyStrip sentence)))
      words
      { input := pyLower (pyStrip sentence), detected_language := none,
        translation := none, status := strSuccess }

/-- The substitution algorithm exactly as §4.2 of the spec words it:
lower-case the input, split on whitespace into tokens, replace any token that
is an exact key of the dict with its mapped value, rejoin with single spaces;
the flag records whether at least one token was replaced. -/
def substituteSpec (d : Dict) (text : Str) : Str × Bool :=
  (joinSpace ((pySplit (pyLower text)).map (fun w => (dictFind d w).getD w)),
   (pySplit (pyLower text)).any (fun w => (dictFind d w).isSome))

/-- The side condition under which substitution is idempotent: every mapped
value of the dict is a nonempty, whitespace-free, already lower-cased token
that is not itself a key. -/
def goodSubstValues (d : Dict) : Bool :=
  d.all fun p =>
    !p.2.isEmpty && (p.2.all fun c => !isPySpace c) &&
      (pyLower p.2 == p.2) && (dictFind d p.2).isNone

/-! ### Concrete data for witnesses and counterexamples

A two-row synthetic lexicon (the one of §8 of the spec) and stub
capabilities: `okCap` echoes its input, `boomCap` raises with message
`"boom"`, `deCap` detects the unsupported language `"de"`. -/

/-- The word `"bonjour"`. -/
def wBonjour : Str := "bonjour".data

/-- The word `"kwezi"`. -/
def wKwezi : Str := "kwezi".data

/-- The word `"jambo"`. -/
def wJambo : Str := "jambo".data

/-- The single whitespace-token `"bonjour,"` (attached punctuation). -/
def wBonjourComma : Str := "bonjour,".data

/-- The two-token sentence `"bonjour jambo"`, matching both lexicons. -/
def wBonjourJambo : Str := "bonjour jambo".data

/-- The two-token sentence `"xx yy"`, matching neither lexicon. -/
def wXxYy : Str := "xx yy".data

/-- The word `"xyz"`, absent from both lexicons. -/
def wXyz : Str := "xyz".data

/-- The exception message `"boom"`. -/
def wBoom : Str := "boom".data

/-- The unsupported detector output `"de"`. -/
def wDe : Str := "de".data

/-- The word `"a"`. -/
def wA : Str := "a".data

/-- The upper-case value `"B"`. -/
def wBigB : Str := "B".data

/-- The lower-case value `"b"`. -/
def wLitB : Str := "b".data

/-- Forward test lexicon `{"bonjour": "kwezi"}`. -/
def exFwd : Dict := [(wBonjour, wKwezi)]

/-- Reverse test lexicon `{"jambo": "bonjour"}`. -/
def exRev : Dict := [(wJambo, wBonjour)]

/-- A capability that succeeds, echoing its input. -/
def okCap : Cap := fun s => Except.ok s

/-- A capability that always raises, with message `"boom"`. -/
def boomCap : Cap := fun _ => Except.error wBoom

/-- A detector that returns the unsupported code `"de"`. -/
def deCap : Cap := fun _ => Except.ok wDe

/-- One of the two hops of the forward pivot route raises with message `e`
(either the first hop raises, or it succeeds and the second hop raises on
the first hop's output). -/
def frenchPivotRaises (fwd : Dict) (fr_en en_sw : Cap) (original e : Str) :
    Prop :=
  fr_en ((replace_french_with_shimarore fwd original).1) = Except.error e ∨
  ∃ english,
    fr_en ((replace_french_with_shimarore fwd original).1) =
        Except.ok english ∧
      en_sw english = Except.error e

/-- One of the two hops of the reverse pivot route raises with message `e`. -/
def shimaorePivotRaises (rev : Dict) (sw_en en_fr : Cap) (original e : Str) :
    Prop :=
  sw_en ((replace_shimarore_with_french rev original).1) = Except.error e ∨
  ∃ english,
    sw_en ((replace_shimarore_with_french rev original).1) =
        Except.ok english ∧
      en_fr english = Except.error e

/-! ### Character-level helper lemmas -/

/-- `Char.ofNat` at a valid codepoint recovers the codepoint. -/
theorem charToNat_ofNat_valid (n : Nat) (h : n.isValidChar) :
    (Char.ofNat n).toNat = n := by
  simp only [Char.ofNat, dif_pos h, Char.ofNatAux, Char.toNat]
  rfl

/-- The codepoint of `Char.toLower`: shifted by 32 on `A`-`Z`, unchanged
elsewhere. -/
theorem toNat_toLower (c : Char) :
    (Char.toLower c).toNat =
      if c.toNat ≥ 65 ∧ c.toNat ≤ 90 then c.toNat + 32 else c.toNat := by
  unfold Char.toLower
  by_cases h : c.toNat ≥ 65 ∧ c.toNat ≤ 90
  · rw [if_pos h, if_pos h, charToNat_ofNat_valid]
    left
    omega
  · rw [if_neg h, if_neg h]

/-- `Char.toLower` is idempotent. -/
theorem toLower_idem (c : Char) : c.toLower.toLower = c.toLower := by
  unfold Char.toLower
  by_cases h : c.toNat ≥ 65 ∧ c.toNat ≤ 90
  · have hv : (c.toNat + 32).isValidChar := by
      left
      omega
    rw [if_pos h, charToNat_ofNat_valid _ hv, if_neg (by omega)]
  · rw [if_neg h, if_neg h]

/-- Lower-casing does not change whether a character is whitespace. -/
theorem isPySpace_toLower (c : Char) : isPySpace c.toLower = isPySpace c := by
  unfold isPySpace
  rw [decide_eq_decide, toNat_toLower]
  by_cases h : c.toNat ≥ 65 ∧ c.toNat ≤ 90
  · rw [if_pos h]
    omega
  · rw [if_neg h]

/-- Every character of `pyLower s` is fixed by `Char.toLower`. -/
theorem toLower_of_mem_pyLower {s : Str} {c : Char} (h : c ∈ pyLower s) :
    c.toLower = c := by
  obtain ⟨c₀, _, rfl⟩ := List.mem_map.mp h
  exact toLower_idem c₀

/-- Mapping a function that fixes every member is the identity. -/
theorem map_eq_self_of_mem {α : Type} {f : α → α} :
    ∀ {l : List α}, (∀ a ∈ l, f a = a) → l.map f = l
  | [], _ => rfl
  | a :: l, h => by
    rw [List.map_cons, h a (List.mem_cons_self a l),
      map_eq_self_of_mem (fun x hx => h x (List.mem_cons_of_mem a hx))]

/-- `pyLower` is idempotent. -/
theorem pyLower_idem (s : Str) : pyLower (pyLower s) = pyLower s :=
  map_eq_self_of_mem (fun _ hc => toLower_of_mem_pyLower hc)

/-- `dropWhile` is the identity when no element satisfies the test. -/
theorem dropWhile_eq_self_of_false {p : Char → Bool} :
    ∀ {l : Str}, (∀ c ∈ l, p c = false) → l.dropWhile p = l
  | [], _ => rfl
  | c :: l, h => by
    rw [List.dropWhile_cons, h c (List.mem_cons_self c l)]
    simp

/-- `pyStrip` is the identity on whitespace-free strings. -/
theorem pyStrip_eq_self {s : Str} (h : ∀ c ∈ s, isPySpace c = false) :
    pyStrip s = s := by
  unfold pyStrip
  rw [dropWhile_eq_self_of_false h,
    dropWhile_eq_self_of_false (fun c hc => h c (List.mem_reverse.mp hc)),
    List.reverse_reverse]

/-! ### Splitting and joining -/

/-- `wsSegs` never returns the empty list of segments. -/
theorem wsSegs_ne_nil : ∀ s : Str, wsSegs s ≠ []
  | [] => by simp [wsSegs]
  | c :: cs => by
    simp only [wsSegs]
    split
    · simp
    · split <;> simp

/-- `wsSegs` on a leading whitespace character starts a fresh empty segment. -/
theorem wsSegs_cons_space {c : Char} (h : isPySpace c = true) (s : Str) :
    wsSegs (c :: s) = [] :: wsSegs s := by
  simp [wsSegs, h]

/-- `wsSegs` on a leading non-whitespace character extends the first
segment. -/
theorem wsSegs_cons_tok {c : Char} (h : isPySpace c = false) (s : Str)
    (u : Str) (us : List Str) (hs : wsSegs s = u :: us) :
    wsSegs (c :: s) = (c :: u) :: us := by
  simp [wsSegs, h, hs]

/-- Prepending a whitespace-free block extends the first segment. -/
theorem wsSegs_tok_append :
    ∀ (t s : Str) (u : Str) (us : List Str),
      (∀ c ∈ t, isPySpace c = false) → wsSegs s = u :: us →
      wsSegs (t ++ s) = (t ++ u) :: us
  | [], _, _, _, _, hs => by simpa using hs
  | c :: t, s, u, us, h, hs => by
    have ih := wsSegs_tok_append t s u us
      (fun x hx => h x (List.mem_cons_of_mem c hx)) hs
    have hc : isPySpace c = false := h c (List.mem_cons_self c t)
    rw [List.cons_append, wsSegs_cons_tok hc _ _ _ ih, List.cons_append]

/-- `pySplit` of a nonempty whitespace-free string is that single token. -/
theorem pySplit_single (t : Str) (hne : t ≠ [])
    (h : ∀ c ∈ t, isPySpace c = false) : pySplit t = [t] := by
  have hseg : wsSegs t = [t] := by
    have := wsSegs_tok_append t [] [] [] h (by simp [wsSegs])
    simpa using this
  have hemp : t.isEmpty = false := by
    cases t
    · exact absurd rfl hne
    · rfl
  simp [pySplit, hseg, hemp]

/-- `joinSpace` over at least two tokens unfolds to an append. -/
theorem joinSpace_cons₂ (t u : Str) (ts : List Str) :
    joinSpace (t :: u :: ts) = t ++ ' ' :: joinSpace (u :: ts) := rfl

/-- `wsSegs` of a single-space join of nonempty whitespace-free tokens
recovers the tokens. -/
theorem wsSegs_joinSpace_cons :
    ∀ (t : Str) (ts : List Str),
      (∀ x ∈ t :: ts, ∀ c ∈ x, isPySpace c = false) →
      wsSegs (joinSpace (t :: ts)) = t :: ts
  | t, [], h => by
    have := wsSegs_tok_append t [] [] [] (h t (List.mem_cons_self t []))
      (by simp [wsSegs])
    simpa [joinSpace] using this
  | t, u :: ts, h => by
    have ih := wsSegs_joinSpace_cons u ts
      (fun x hx => h x (List.mem_cons_of_mem t hx))
    have hsp : wsSegs (' ' :: joinSpace (u :: ts)) = [] :: (u :: ts) := by
      rw [wsSegs_cons_space (by decide), ih]
    have := wsSegs_tok_append t (' ' :: joinSpace (u :: ts)) [] (u :: ts)
      (h t (List.mem_cons_self t (u :: ts))) hsp
    rw [joinSpace_cons₂, this, List.append_nil]

/-- Round trip: `pySplit` undoes a single-space `joinSpace` of nonempty
whitespace-free tokens. -/
theorem pySplit_joinSpace :
    ∀ ts : List Str,
      (∀ t ∈ ts, t ≠ [] ∧ ∀ c ∈ t, isPySpace c = false) →
      pySplit (joinSpace ts) = ts
  | [], _ => rfl
  | t :: ts, h => by
    have hseg := wsSegs_joinSpace_cons t ts (fun x hx => (h x hx).2)
    have hfil : ∀ x ∈ t :: ts, (!x.isEmpty) = true := by
      intro x hx
      have := (h x hx).1
      cases x
      · exact absurd rfl this
      · rfl
    unfold pySplit
    rw [hseg, List.filter_eq_self.mpr hfil]

/-- Every character of every segment of `wsSegs s` is a non-whitespace
character of `s`. -/
theorem wsSegs_mem :
    ∀ (s : Str) (t : Str), t ∈ wsSegs s → ∀ c ∈ t,
      isPySpace c = false ∧ c ∈ s
  | [], t, ht => by
    simp only [wsSegs, List.mem_singleton] at ht
    subst ht
    simp
  | a :: s, t, ht => by
    by_cases ha : isPySpace a
    · rw [wsSegs_cons_space ha] at ht
      rcases List.mem_cons.mp ht with h | h
      · subst h
        simp
      · intro c hc
        obtain ⟨h1, h2⟩ := wsSegs_mem s t h c hc
        exact ⟨h1, List.mem_cons_of_mem a h2⟩
    · have ha : isPySpace a = false := by simpa using ha
      rcases hs : wsSegs s with _ | ⟨u, us⟩
      · exact absurd hs (wsSegs_ne_nil s)
      · rw [wsSegs_cons_tok ha _ _ _ hs] at ht
        rcases List.mem_cons.mp ht with h | h
        · subst h
          intro c hc
          rcases List.mem_cons.mp hc with h | h
          · subst h
            exact ⟨ha, List.mem_cons_self c s⟩
          · obtain ⟨h1, h2⟩ := wsSegs_mem s u (hs ▸ List.mem_cons_self u us) c h
            exact ⟨h1, List.mem_cons_of_mem a h2⟩
        · intro c hc
          obtain ⟨h1, h2⟩ :=
            wsSegs_mem s t (hs ▸ List.mem_cons_of_mem u h) c hc
          exact ⟨h1, List.mem_cons_of_mem a h2⟩

/-- Tokens of `pySplit s` are nonempty, whitespace-free, and drawn from the
characters of `s`. -/
theorem pySplit_mem {s t : Str} (ht : t ∈ pySplit s) :
    t ≠ [] ∧ ∀ c ∈ t, isPySpace c = false ∧ c ∈ s := by
  obtain ⟨h1, h2⟩ := List.mem_filter.mp ht
  refine ⟨?_, wsSegs_mem s t h1⟩
  intro hnil
  subst hnil
  simp at h2

/-- Characters of a single-space join are spaces or characters of the
tokens. -/
theorem mem_joinSpace :
    ∀ (ts : List Str) (c : Char), c ∈ joinSpace ts →
      c = ' ' ∨ ∃ t ∈ ts, c ∈ t
  | [], c, h => by simp [joinSpace] at h
  | [t], c, h => Or.inr ⟨t, List.mem_cons_self t [], by simpa [joinSpace] using h⟩
  | t :: u :: ts, c, h => by
    rw [joinSpace_cons₂] at h
    rcases List.mem_append.mp h with h | h
    · exact Or.inr ⟨t, List.mem_cons_self t (u :: ts), h⟩
    · rcases List.mem_cons.mp h with h | h
      · exact Or.inl h
      · rcases mem_joinSpace (u :: ts) c h with h | ⟨x, hx, hcx⟩
        · exact Or.inl h
        · exact Or.inr ⟨x, List.mem_cons_of_mem t hx, hcx⟩

/-! ### Dict lemmas -/

/-- `dictFind` after a Python dict insertion: the inserted key now binds the
new value, every other key is unchanged. -/
theorem dictFind_pyDictInsert :
    ∀ (d : Dict) (k v q : Str),
      dictFind (pyDictInsert d k v) q =
        if k = q then some v else dictFind d q
  | [], k, v, q => by
    simp [pyDictInsert, dictFind]
  | (a, b) :: d, k, v, q => by
    by_cases hak : a = k
    · subst hak
      simp only [pyDictInsert, if_pos rfl]
      by_cases h1 : a = q
      · simp [dictFind, h1]
      · simp [dictFind, h1]
    · simp only [pyDictInsert, if_neg hak]
      by_cases h1 : a = q
      · subst h1
        have hka : ¬k = a := fun h => hak h.symm
        simp [dictFind, hka]
      · simp [dictFind, h1, dictFind_pyDictInsert d k v q]

/-- `dictFind` over the lexicon-building fold: the last row whose lower-cased
key matches wins; otherwise the accumulator decides. -/
theorem dictFind_foldl :
    ∀ (rows : List (Str × Str)) (d : Dict) (k : Str),
      dictFind
          (rows.foldl (fun d r => pyDictInsert d (pyLower r.1) (pyLower r.2)) d)
          k =
        ((rows.reverse.find? (fun r => pyLower r.1 == k)).map
            (fun r => pyLower r.2)).or
          (dictFind d k)
  | [], d, k => by simp
  | r :: rows, d, k => by
    simp only [List.foldl_cons, List.reverse_cons, List.find?_append,
      dictFind_foldl rows]
    rw [dictFind_pyDictInsert]
    cases hf : rows.reverse.find? (fun r => pyLower r.1 == k) with
    | some p => simp
    | none =>
      by_cases hk : pyLower r.1 = k
      · have hb : (pyLower r.1 == k) = true := beq_iff_eq.mpr hk
        simp [List.find?, hk, hb]
      · have hb : (pyLower r.1 == k) = false := by simpa using hk
        simp [List.find?, hk, hb]

/-- **C8**: lexicon construction is last-write-wins.  For every sequence of
dataset rows and every key `k`, the binding of `k` in the built map is the
lower-cased value of the last row whose key lower-cases to `k` (and `k` is
unbound when no row matches) — so of two rows sharing a lower-cased key, the
later one wins.  Both lexicon directions are instances of `buildLexicon`
(src/translation.py:15-16), the reverse one on the swapped rows. -/
theorem lexicon_last_write_wins (rows : List (Str × Str)) (k : Str) :
    dictFind (buildLexicon rows) k =
      (rows.reverse.find? (fun r => pyLower r.1 == k)).map
        (fun r => pyLower r.2) := by
  have h := dictFind_foldl rows [] k
  simpa [buildLexicon, dictFind] using h

/-! ### The substitution engine -/

/-- The loop of src/translation.py:21-25 is a pointwise map plus an
any-flag. -/
theorem replaceLoop_eq (d : Dict) :
    ∀ ws : List Str,
      replaceLoop d ws =
        (ws.map (fun w => (dictFind d w).getD w),
         ws.any (fun w => (dictFind d w).isSome))
  | [] => rfl
  | w :: ws => by
    simp only [replaceLoop, replaceLoop_eq d ws]
    cases h : dictFind d w <;> simp [h]

/-- **C7**: both word replacers equal the reference substitution algorithm
(lower-case, whitespace-split, exact-key replacement, single-space rejoin)
and their boolean is true iff at least one token was replaced. -/
theorem substitution_matches_reference (d : Dict) (text : Str) :
    replace_french_with_shimarore d text = substituteSpec d text ∧
    replace_shimarore_with_french d text = substituteSpec d text := by
  constructor <;>
    simp [replace_french_with_shimarore, replace_shimarore_with_french,
      substituteSpec, replaceLoop_eq]

/-- A found binding is the value of some pair of the dict. -/
theorem dictFind_some_mem :
    ∀ (d : Dict) (k v : Str), dictFind d k = some v → ∃ p ∈ d, p.2 = v
  | [], k, v, h => by simp [dictFind] at h
  | (a, b) :: d, k, v, h => by
    by_cases hak : a = k
    · refine ⟨(a, b), List.mem_cons_self _ _, ?_⟩
      simp only [dictFind, if_pos hak] at h
      exact (Option.some_inj.mp h)
    · obtain ⟨p, hp, hv⟩ :=
        dictFind_some_mem d k v (by simpa [dictFind, hak] using h)
      exact ⟨p, List.mem_cons_of_mem _ hp, hv⟩

/-- Pointwise consequence of a map being the identity. -/
theorem eq_of_map_eq_self {α : Type} {f : α → α} :
    ∀ {l : List α}, l.map f = l → ∀ a ∈ l, f a = a
  | [], _, a, ha => absurd ha (List.not_mem_nil a)
  | b :: l, h, a, ha => by
    rw [List.map_cons] at h
    injection h with h1 h2
    rcases List.mem_cons.mp ha with rfl | ha
    · exact h1
    · exact eq_of_map_eq_self h2 a ha

/-- Unpacking `goodSubstValues`. -/
theorem goodSubstValues_spec {d : Dict} (h : goodSubstValues d = true) :
    ∀ p ∈ d, p.2 ≠ [] ∧ (∀ c ∈ p.2, isPySpace c = false) ∧
      pyLower p.2 = p.2 ∧ dictFind d p.2 = none := by
  intro p hp
  have h1 := List.all_eq_true.mp h p hp
  simp only [Bool.and_eq_true] at h1
  obtain ⟨⟨⟨he, hsp⟩, hlow⟩, hnone⟩ := h1
  refine ⟨?_, ?_, ?_, ?_⟩
  · intro hnil
    rw [hnil] at he
    simp at he
  · intro c hc
    have := List.all_eq_true.mp hsp c hc
    simpa using this
  · exact eq_of_beq hlow
  · exact Option.isNone_iff_eq_none.mp hnone

/-- **C9** counterexample: the idempotence claim fails for an arbitrary
dictionary even when no mapped value is a key.  With the dictionary
`{"a": "B"}` (whose only value `"B"` is not a key) and input `"a"`, the first
substitution produces `"B"`, but a second substitution lower-cases it to
`"b"`, so the second run is not a no-op on the string component. -/
theorem substitution_not_idempotent_cex :
    dictFind [(wA, wBigB)] wBigB = none ∧
    (replace_french_with_shimarore [(wA, wBigB)] wA).1 = wBigB ∧
    (replace_french_with_shimarore [(wA, wBigB)]
        (replace_french_with_shimarore [(wA, wBigB)] wA).1).1 ≠ wBigB := by
  decide

/-- **C9** (amended): substitution is idempotent on the string component for
every dictionary whose mapped values are nonempty, whitespace-free,
lower-cased tokens that are not themselves keys, and every input text. -/
theorem substitution_idempotent_on_token_values (d : Dict) (text : Str)
    (h : goodSubstValues d = true) :
    (replace_french_with_shimarore d
        (replace_french_with_shimarore d text).1).1 =
      (replace_french_with_shimarore d text).1 := by
  have hgood := goodSubstValues_spec h
  have hrepl : ∀ t : Str, (replace_french_with_shimarore d t).1 =
      joinSpace ((pySplit (pyLower t)).map
        (fun w => (dictFind d w).getD w)) := by
    intro t
    simp [replace_french_with_shimarore, replaceLoop_eq]
  have houtp : ∀ t ∈ (pySplit (pyLower text)).map
      (fun w => (dictFind d w).getD w),
      t ≠ [] ∧ (∀ c ∈ t, isPySpace c = false) ∧
        (∀ c ∈ t, c.toLower = c) ∧ dictFind d t = none := by
    intro t ht
    obtain ⟨w, hw, rfl⟩ := List.mem_map.mp ht
    cases hdw : dictFind d w with
    | some v =>
      simp only [Option.getD_some]
      obtain ⟨p, hp, hpv⟩ := dictFind_some_mem d w v hdw
      obtain ⟨h1, h2, h3, h4⟩ := hgood p hp
      rw [hpv] at h1 h2 h3 h4
      have h3m : List.map Char.toLower v = v := h3
      exact ⟨h1, h2, eq_of_map_eq_self h3m, h4⟩
    | none =>
      simp only [Option.getD_none]
      obtain ⟨h1, h2⟩ := pySplit_mem hw
      exact ⟨h1, fun c hc => (h2 c hc).1,
        fun c hc => toLower_of_mem_pyLower ((h2 c hc).2), hdw⟩
  have hlow : pyLower (joinSpace ((pySplit (pyLower text)).map
      (fun w => (dictFind d w).getD w))) =
      joinSpace ((pySplit (pyLower text)).map
        (fun w => (dictFind d w).getD w)) := by
    apply map_eq_self_of_mem
    intro c hc
    rcases mem_joinSpace _ c hc with rfl | ⟨t, ht, hct⟩
    · decide
    · exact (houtp t ht).2.2.1 c hct
  have hsplit : pySplit (pyLower (joinSpace ((pySplit (pyLower text)).map
      (fun w => (dictFind d w).getD w)))) =
      (pySplit (pyLower text)).map (fun w => (dictFind d w).getD w) := by
    rw [hlow]
    exact pySplit_joinSpace _
      (fun t ht => ⟨(houtp t ht).1, (houtp t ht).2.1⟩)
  have hmap2 : ((pySplit (pyLower text)).map
        (fun w => (dictFind d w).getD w)).map
      (fun w => (dictFind d w).getD w) =
      (pySplit (pyLower text)).map (fun w => (dictFind d w).getD w) :=
    map_eq_self_of_mem (fun t ht => by simp [(houtp t ht).2.2.2])
  rw [hrepl ((replace_french_with_shimarore d text).1), hrepl text,
    hsplit, hmap2]

/-- **C9** witness: the amended idempotence theorem applied to the dictionary
`{"a": "b"}` and input `"a"`. -/
theorem substitution_idempotent_on_token_values_witness :
    goodSubstValues [(wA, wLitB)] = true ∧
    (replace_french_with_shimarore [(wA, wLitB)]
        (replace_french_with_shimarore [(wA, wLitB)] wA).1).1 =
      (replace_french_with_shimarore [(wA, wLitB)] wA).1 :=
  ⟨by decide,
    substitution_idempotent_on_token_values [(wA, wLitB)] wA (by decide)⟩

/-! ### The translate_input pipeline -/

/-- The pivot routes never touch `detected_language` (forward direction). -/
theorem frenchPivot_detected (fwd : Dict) (fr_en en_sw : Cap) (original : Str)
    (r : Result) :
    (frenchPivot fwd fr_en en_sw original r).detected_language =
      r.detected_language := by
  unfold frenchPivot
  split
  · rfl
  · split
    · rfl
    · rfl

/-- A raising forward pivot route only changes the status, to
`"error: " ++ e`. -/
theorem frenchPivot_raises_eq (fwd : Dict) (fr_en en_sw : Cap)
    (original e : Str) (r : Result)
    (h : frenchPivotRaises fwd fr_en en_sw original e) :
    frenchPivot fwd fr_en en_sw original r = { r with status := strErr ++ e } := by
  rcases h with h1 | ⟨english, h1, h2⟩
  · unfold frenchPivot
    rw [h1]
  · unfold frenchPivot
    rw [h1]
    simp only []
    rw [h2]

/-- A raising reverse pivot route only changes the status, to
`"error: " ++ e`. -/
theorem shimaorePivot_raises_eq (rev : Dict) (sw_en en_fr : Cap)
    (original e : Str) (r : Result)
    (h : shimaorePivotRaises rev sw_en en_fr original e) :
    shimaorePivot rev sw_en en_fr original r = { r with status := strErr ++ e } := by
  rcases h with h1 | ⟨english, h1, h2⟩
  · unfold shimaorePivot
    rw [h1]
  · unfold shimaorePivot
    rw [h1]
    simp only []
    rw [h2]

/-- On any input whose cleaned token count differs from one, `translate_input`
runs the multi-token part of the pipeline on the freshly initialised
result. -/
theorem translate_input_of_multi (detect fr_en en_sw sw_en en_fr : Cap)
    (fwd rev : Dict) (sentence : Str)
    (hlen : (pySplit (clean_text (pyLower (pyStrip sentence)))).length ≠ 1) :
    translate_input detect fr_en en_sw sw_en en_fr fwd rev sentence =
      multiBranch detect fr_en en_sw sw_en en_fr fwd rev
        (pyLower (pyStrip sentence)) (clean_text (pyLower (pyStrip sentence)))
        (pySplit (clean_text (pyLower (pyStrip sentence))))
        { input := pyLower (pyStrip sentence), detected_language := none,
          translation := none, status := strSuccess } := by
  rcases hws : pySplit (clean_text (pyLower (pyStrip sentence)))
    with _ | ⟨w, _ | ⟨w2, ws⟩⟩
  · simp [translate_input, hws]
  · rw [hws] at hlen
    simp at hlen
  · simp [translate_input, hws]

/-- **C1**: tie-break.  For every multi-token input containing at least one
forward-lexicon token and at least one reverse-lexicon token,
`translate_input` classifies the input as `"fr"` and takes the forward pivot
route (`frenchPivot` on the freshly initialised result with
`detected_language := "fr"`); the reverse branch is never reached, regardless
of the order or counts of the matching tokens. -/
theorem tie_break_forward_wins (detect fr_en en_sw sw_en en_fr : Cap)
    (fwd rev : Dict) (sentence : Str)
    (hlen : (pySplit (clean_text (pyLower (pyStrip sentence)))).length ≠ 1)
    (hf : (pySplit (clean_text (pyLower (pyStrip sentence)))).any
        (fun w => (dictFind fwd w).isSome) = true)
    (hr : (pySplit (clean_text (pyLower (pyStrip sentence)))).any
        (fun w => (dictFind rev w).isSome) = true) :
    translate_input detect fr_en en_sw sw_en en_fr fwd rev sentence =
      frenchPivot fwd fr_en en_sw (pyLower (pyStrip sentence))
        { input := pyLower (pyStrip sentence), detected_language := some strFr,
          translation := none, status := strSuccess } ∧
    (translate_input detect fr_en en_sw sw_en en_fr fwd rev
        sentence).detected_language = some strFr := by
  have he := translate_input_of_multi detect fr_en en_sw sw_en en_fr fwd rev
    sentence hlen
  constructor
  · rw [he]
    simp [multiBranch, hf]
  · rw [he]
    simp [multiBranch, hf, frenchPivot_detected]

/-- **C1** witness: `"bonjour jambo"` matches both test lexicons and is
routed through the forward pivot with `detected_language = "fr"`. -/
theorem tie_break_forward_wins_witness :
    translate_input okCap okCap okCap okCap okCap exFwd exRev wBonjourJambo =
      frenchPivot exFwd okCap okCap (pyLower (pyStrip wBonjourJambo))
        { input := pyLower (pyStrip wBonjourJambo),
          detected_language := some strFr, translation := none,
          status := strSuccess } ∧
    (translate_input okCap okCap okCap okCap okCap exFwd exRev
        wBonjourJambo).detected_language = some strFr :=
  tie_break_forward_wins okCap okCap okCap okCap okCap exFwd exRev
    wBonjourJambo (by decide) (by decide) (by decide)

/-- **C4**: for every single-token input (one token after cleaning and
splitting) that is a key of the forward lexicon, `translate_input` returns
the forward-lexicon value, `detected_language = "fr"` and status
`"success"`; the capabilities are universally quantified and absent from the
result, so neither the detector nor any translator is consulted. -/
theorem single_token_forward_success (detect fr_en en_sw sw_en en_fr : Cap)
    (fwd rev : Dict) (sentence w v : Str)
    (hw : pySplit (clean_text (pyLower (pyStrip sentence))) = [w])
    (hf : dictFind fwd w = some v) :
    translate_input detect fr_en en_sw sw_en en_fr fwd rev sentence =
      { input := pyLower (pyStrip sentence), detected_language := some strFr,
        translation := some v, status := strSuccess } := by
  simp [translate_input, hw, hf]

/-- **C4** witness: the single word `"bonjour"` under the test lexicons. -/
theorem single_token_forward_success_witness :
    translate_input okCap okCap okCap okCap okCap exFwd exRev wBonjour =
      { input := pyLower (pyStrip wBonjour), detected_language := some strFr,
        translation := some wKwezi, status := strSuccess } :=
  single_token_forward_success okCap okCap okCap okCap okCap exFwd exRev
    wBonjour wBonjour wKwezi (by decide) (by decide)

/-- **C5**: for every single-token input whose token is a key of neither
lexicon, `translate_input` returns status exactly `"word not found"` with
`translation` and `detected_language` absent; the capabilities are
universally quantified and absent from the result, so neither the detector
nor any translator is consulted. -/
theorem single_token_not_found (detect fr_en en_sw sw_en en_fr : Cap)
    (fwd rev : Dict) (sentence w : Str)
    (hw : pySplit (clean_text (pyLower (pyStrip sentence))) = [w])
    (hf : dictFind fwd w = none) (hr : dictFind rev w = none) :
    translate_input detect fr_en en_sw sw_en en_fr fwd rev sentence =
      { input := pyLower (pyStrip sentence), detected_language := none,
        translation := none, status := strWordNotFound } := by
  simp [translate_input, hw, hf, hr]

/-- **C5** witness: the single word `"xyz"` under the test lexicons. -/
theorem single_token_not_found_witness :
    translate_input okCap okCap okCap okCap okCap exFwd exRev wXyz =
      { input := pyLower (pyStrip wXyz), detected_language := none,
        translation := none, status := strWordNotFound } :=
  single_token_not_found okCap okCap okCap okCap okCap exFwd exRev
    wXyz wXyz (by decide) (by decide) (by decide)

/-- **C6**: for every multi-token input with no lexicon-matching token, if the
detector returns a code outside `{"fr", "sw"}`, the result has status
`"unsupported language"`, no translation, and `detected_language` equal to
the detector's raw output. -/
theorem detector_unsupported_language (detect fr_en en_sw sw_en en_fr : Cap)
    (fwd rev : Dict) (sentence c : Str)
    (hlen : (pySplit (clean_text (pyLower (pyStrip sentence)))).length ≠ 1)
    (hnf : (pySplit (clean_text (pyLower (pyStrip sentence)))).any
        (fun w => (dictFind fwd w).isSome) = false)
    (hnr : (pySplit (clean_text (pyLower (pyStrip sentence)))).any
        (fun w => (dictFind rev w).isSome) = false)
    (hd : detect (clean_text (pyLower (pyStrip sentence))) = Except.ok c)
    (hc1 : c ≠ strFr) (hc2 : c ≠ strSw) :
    translate_input detect fr_en en_sw sw_en en_fr fwd rev sentence =
      { input := pyLower (pyStrip sentence), detected_language := some c,
        translation := none, status := strUnsupported } := by
  rw [translate_input_of_multi detect fr_en en_sw sw_en en_fr fwd rev
    sentence hlen]
  simp [multiBranch, detectBranch, hnf, hnr, hd, hc1, hc2]

/-- **C6** witness: `"xx yy"` matches neither test lexicon and the stub
detector reports `"de"`. -/
theorem detector_unsupported_language_witness :
    translate_input deCap okCap okCap okCap okCap exFwd exRev wXxYy =
      { input := pyLower (pyStrip wXxYy), detected_language := some wDe,
        translation := none, status := strUnsupported } :=
  detector_unsupported_language deCap okCap okCap okCap okCap exFwd exRev
    wXxYy wDe (by decide) (by decide) (by decide) rfl (by decide) (by decide)

/-- **C2** counterexample: classification does not work on the raw
whitespace-split tokens.  The single whitespace-token `"bonjour,"` is not a
forward-lexicon key, yet `translate_input` strips the comma via `clean_text`
before splitting, finds `"bonjour"` in the lexicon, and answers with the
direct lookup success — not with the `"word not found"` outcome the claim
predicts for it. -/
theorem punct_attached_token_matches_cex :
    translate_input okCap okCap okCap okCap okCap exFwd exRev wBonjourComma =
      { input := wBonjourComma, detected_language := some strFr,
        translation := some wKwezi, status := strSuccess } ∧
    dictFind exFwd wBonjourComma = none ∧
    (translate_input okCap okCap okCap okCap okCap exFwd exRev
        wBonjourComma).status ≠ strWordNotFound := by
  refine ⟨by decide, by decide, by decide⟩

/-- **C2** (amended): token count and lexicon-membership tests inside
`translate_input` are performed on the whitespace-split tokens of the
punctuation-stripped (`clean_text`) lower-cased input.  In particular a
single whitespace-token whose punctuation-stripped form is a forward-lexicon
key — even when its exact form is not — yields the forward direct-lookup
success, not the WordNotFound outcome. -/
theorem cleaned_token_forward_match (detect fr_en en_sw sw_en en_fr : Cap)
    (fwd rev : Dict) (sentence v : Str)
    (hns : ∀ c ∈ sentence, isPySpace c = false)
    (hne : clean_text sentence ≠ [])
    (hexact : dictFind fwd (pyLower sentence) = none)
    (hf : dictFind fwd (clean_text sentence) = some v) :
    translate_input detect fr_en en_sw sw_en en_fr fwd rev sentence =
      { input := pyLower sentence, detected_language := some strFr,
        translation := some v, status := strSuccess } := by
  have hstrip : pyStrip sentence = sentence := pyStrip_eq_self hns
  have hca : clean_text (pyLower sentence) = clean_text sentence := by
    unfold clean_text
    rw [pyLower_idem]
  have hcs : ∀ c ∈ clean_text sentence, isPySpace c = false := by
    intro c hc
    obtain ⟨hc1, _⟩ := List.mem_filter.mp hc
    obtain ⟨c₀, hc₀, rfl⟩ := List.mem_map.mp hc1
    rw [isPySpace_toLower]
    exact hns c₀ hc₀
  have hw : pySplit (clean_text (pyLower sentence)) = [clean_text sentence] := by
    rw [hca]
    exact pySplit_single _ hne hcs
  simp [translate_input, hstrip, hw, hf]

/-- **C2** witness: the amended theorem applied to `"bonjour,"`, whose exact
form is not a key but whose cleaned form `"bonjour"` is. -/
theorem cleaned_token_forward_match_witness :
    translate_input okCap okCap okCap okCap okCap exFwd exRev wBonjourComma =
      { input := pyLower wBonjourComma, detected_language := some strFr,
        translation := some wKwezi, status := strSuccess } :=
  cleaned_token_forward_match okCap okCap okCap okCap okCap exFwd exRev
    wBonjourComma wKwezi (by decide) (by decide) (by decide) (by decide)

/-- **C3**: for every multi-token input, if the external capability invoked on
the taken path raises with message `e` — the statistical detector, or either
hop of whichever pivot route runs (lexicon-selected or detector-selected) —
then `translate_input` returns status `"error: " ++ e` with no translation:
the exception is caught, nothing propagates, and no partial translation from
a completed first hop is ever returned. -/
theorem capability_error_result (detect fr_en en_sw sw_en en_fr : Cap)
    (fwd rev : Dict) (sentence e : Str)
    (hlen : (pySplit (clean_text (pyLower (pyStrip sentence)))).length ≠ 1)
    (hraise :
      ((pySplit (clean_text (pyLower (pyStrip sentence)))).any
            (fun w => (dictFind fwd w).isSome) = true ∧
        frenchPivotRaises fwd fr_en en_sw (pyLower (pyStrip sentence)) e) ∨
      ((pySplit (clean_text (pyLower (pyStrip sentence)))).any
            (fun w => (dictFind fwd w).isSome) = false ∧
        (pySplit (clean_text (pyLower (pyStrip sentence)))).any
            (fun w => (dictFind rev w).isSome) = true ∧
        shimaorePivotRaises rev sw_en en_fr (pyLower (pyStrip sentence)) e) ∨
      ((pySplit (clean_text (pyLower (pyStrip sentence)))).any
            (fun w => (dictFind fwd w).isSome) = false ∧
        (pySplit (clean_text (pyLower (pyStrip sentence)))).any
            (fun w => (dictFind rev w).isSome) = false ∧
        detect (clean_text (pyLower (pyStrip sentence))) = Except.error e) ∨
      ((pySplit (clean_text (pyLower (pyStrip sentence)))).any
            (fun w => (dictFind fwd w).isSome) = false ∧
        (pySplit (clean_text (pyLower (pyStrip sentence)))).any
            (fun w => (dictFind rev w).isSome) = false ∧
        detect (clean_text (pyLower (pyStrip sentence))) = Except.ok strFr ∧
        frenchPivotRaises fwd fr_en en_sw (pyLower (pyStrip sentence)) e) ∨
      ((pySplit (clean_text (pyLower (pyStrip sentence)))).any
            (fun w => (dictFind fwd w).isSome) = false ∧
        (pySplit (clean_text (pyLower (pyStrip sentence)))).any
            (fun w => (dictFind rev w).isSome) = false ∧
        detect (clean_text (pyLower (pyStrip sentence))) = Except.ok strSw ∧
        shimaorePivotRaises rev sw_en en_fr (pyLower (pyStrip sentence)) e)) :
    (translate_input detect fr_en en_sw sw_en en_fr fwd rev sentence).status =
      strErr ++ e ∧
    (translate_input detect fr_en en_sw sw_en en_fr fwd rev
        sentence).translation = none := by
  have he := translate_input_of_multi detect fr_en en_sw sw_en en_fr fwd rev
    sentence hlen
  rcases hraise with ⟨hfr, hp⟩ | ⟨hfr, hrr, hp⟩ | ⟨hfr, hrr, hd⟩ |
    ⟨hfr, hrr, hd, hp⟩ | ⟨hfr, hrr, hd, hp⟩
  · have heq := frenchPivot_raises_eq fwd fr_en en_sw
      (pyLower (pyStrip sentence)) e
      { input := pyLower (pyStrip sentence), detected_language := some strFr,
        translation := none, status := strSuccess } hp
    rw [he]
    simp [multiBranch, hfr, heq]
  · have heq := shimaorePivot_raises_eq rev sw_en en_fr
      (pyLower (pyStrip sentence)) e
      { input := pyLower (pyStrip sentence), detected_language := some strSw,
        translation := none, status := strSuccess } hp
    rw [he]
    simp [multiBranch, hfr, hrr, heq]
  · rw [he]
    simp [multiBranch, detectBranch, hfr, hrr, hd]
  · have heq := frenchPivot_raises_eq fwd fr_en en_sw
      (pyLower (pyStrip sentence)) e
      { input := pyLower (pyStrip sentence), detected_language := some strFr,
        translation := none, status := strSuccess } hp
    rw [he]
    simp [multiBranch, detectBranch, hfr, hrr, hd, heq]
  · have heq := shimaorePivot_raises_eq rev sw_en en_fr
      (pyLower (pyStrip sentence)) e
      { input := pyLower (pyStrip sentence), detected_language := some strSw,
        translation := none, status := strSuccess } hp
    rw [he]
    simp [multiBranch, detectBranch, hfr, hrr, hd, heq,
      (show strSw ≠ strFr by decide)]

/-- **C3** witness: on `"xx yy"` (no lexicon signal) with a detector that
raises with message `"boom"`, the result status is `"error: boom"` and the
translation is absent. -/
theorem capability_error_result_witness :
    (translate_input boomCap okCap okCap okCap okCap exFwd exRev
        wXxYy).status = strErr ++ wBoom ∧
    (translate_input boomCap okCap okCap okCap okCap exFwd exRev
        wXxYy).translation = none :=
  capability_error_result boomCap okCap okCap okCap okCap exFwd exRev
    wXxYy wBoom (by decide)
    (Or.inr (Or.inr (Or.inl ⟨by decide, by decide, rfl⟩)))

/-- **C10** (implicit): when a multi-token input has a lexicon signal — or the
detector returns a supported code — and a subsequent translation hop raises,
the error result still carries the already-assigned `detected_language`
(`"fr"` or `"sw"`) alongside the `"error: "`-led status; only when the
detector itself raises does `detected_language` remain absent. -/
theorem error_keeps_detected_language (detect fr_en en_sw sw_en en_fr : Cap)
    (fwd rev : Dict) (sentence : Str)
    (hlen : (pySplit (clean_text (pyLower (pyStrip sentence)))).length ≠ 1) :
    (∀ e, (pySplit (clean_text (pyLower (pyStrip sentence)))).any
          (fun w => (dictFind fwd w).isSome) = true →
        frenchPivotRaises fwd fr_en en_sw (pyLower (pyStrip sentence)) e →
        (translate_input detect fr_en en_sw sw_en en_fr fwd rev
            sentence).detected_language = some strFr ∧
        (translate_input detect fr_en en_sw sw_en en_fr fwd rev
            sentence).status = strErr ++ e) ∧
    (∀ e, (pySplit (clean_text (pyLower (pyStrip sentence)))).any
          (fun w => (dictFind fwd w).isSome) = false →
        (pySplit (clean_text (pyLower (pyStrip sentence)))).any
          (fun w => (dictFind rev w).isSome) = true →
        shimaorePivotRaises rev sw_en en_fr (pyLower (pyStrip sentence)) e →
        (translate_input detect fr_en en_sw sw_en en_fr fwd rev
            sentence).detected_language = some strSw ∧
        (translate_input detect fr_en en_sw sw_en en_fr fwd rev
            sentence).status = strErr ++ e) ∧
    (∀ e, (pySplit (clean_text (pyLower (pyStrip sentence)))).any
          (fun w => (dictFind fwd w).isSome) = false →
        (pySplit (clean_text (pyLower (pyStrip sentence)))).any
          (fun w => (dictFind rev w).isSome) = false →
        detect (clean_text (pyLower (pyStrip sentence))) = Except.error e →
        (translate_input detect fr_en en_sw sw_en en_fr fwd rev
            sentence).detected_language = none ∧
        (translate_input detect fr_en en_sw sw_en en_fr fwd rev
            sentence).status = strErr ++ e) ∧
    (∀ e, (pySplit (clean_text (pyLower (pyStrip sentence)))).any
          (fun w => (dictFind fwd w).isSome) = false →
        (pySplit (clean_text (pyLower (pyStrip sentence)))).any
          (fun w => (dictFind rev w).isSome) = false →
        detect (clean_text (pyLower (pyStrip sentence))) = Except.ok strFr →
        frenchPivotRaises fwd fr_en en_sw (pyLower (pyStrip sentence)) e →
        (translate_input detect fr_en en_sw sw_en en_fr fwd rev
            sentence).detected_language = some strFr ∧
        (translate_input detect fr_en en_sw sw_en en_fr fwd rev
            sentence).status = strErr ++ e) ∧
    (∀ e, (pySplit (clean_text (pyLower (pyStrip sentence)))).any
          (fun w => (dictFind fwd w).isSome) = false →
        (pySplit (clean_text (pyLower (pyStrip sentence)))).any
          (fun w => (dictFind rev w).isSome) = false →
        detect (clean_text (pyLower (pyStrip sentence))) = Except.ok strSw →
        shimaorePivotRaises rev sw_en en_fr (pyLower (pyStrip sentence)) e →
        (translate_input detect fr_en en_sw sw_en en_fr fwd rev
            sentence).detected_language = some strSw ∧
        (translate_input detect fr_en en_sw sw_en en_fr fwd rev
            sentence).status = strErr ++ e) := by
  have he := translate_input_of_multi detect fr_en en_sw sw_en en_fr fwd rev
    sentence hlen
  refine ⟨?_, ?_, ?_, ?_, ?_⟩
  · intro e hfr hp
    have heq := frenchPivot_raises_eq fwd fr_en en_sw
      (pyLower (pyStrip sentence)) e
      { input := pyLower (pyStrip sentence), detected_language := some strFr,
        translation := none, status := strSuccess } hp
    rw [he]
    simp [multiBranch, hfr, heq]
  · intro e hfr hrr hp
    have heq := shimaorePivot_raises_eq rev sw_en en_fr
      (pyLower (pyStrip sentence)) e
      { input := pyLower (pyStrip sentence), detected_language := some strSw,
        translation := none, status := strSuccess } hp
    rw [he]
    simp [multiBranch, hfr, hrr, heq]
  · intro e hfr hrr hd
    rw [he]
    simp [multiBranch, detectBranch, hfr, hrr, hd]
  · intro e hfr hrr hd hp
    have heq := frenchPivot_raises_eq fwd fr_en en_sw
      (pyLower (pyStrip sentence)) e
      { input := pyLower (pyStrip sentence), detected_language := some strFr,
        translation := none, status := strSuccess } hp
    rw [he]
    simp [multiBranch, detectBranch, hfr, hrr, hd, heq]
  · intro e hfr hrr hd hp
    have heq := shimaorePivot_raises_eq rev sw_en en_fr
      (pyLower (pyStrip sentence)) e
      { input := pyLower (pyStrip sentence), detected_language := some strSw,
        translation := none, status := strSuccess } hp
    rw [he]
    simp [multiBranch, detectBranch, hfr, hrr, hd, heq,
      (show strSw ≠ strFr by decide)]

/-- **C10** witness: `"bonjour jambo"` has a forward-lexicon signal; with a
first hop that raises with `"boom"`, the error result still carries
`detected_language = "fr"`. -/
theorem error_keeps_detected_language_witness :
    (translate_input okCap boomCap okCap okCap okCap exFwd exRev
        wBonjourJambo).detected_language = some strFr ∧
    (translate_input okCap boomCap okCap okCap okCap exFwd exRev
        wBonjourJambo).status = strErr ++ wBoom :=
  (error_keeps_detected_language okCap boomCap okCap okCap okCap exFwd exRev
      wBonjourJambo (by decide)).1 wBoom (by decide) (Or.inl rfl)
